import Mathlib

/-!
# Truck Calculator — verification of the core pipeline

Shallow embedding of the truck-calculator core:

* `getTrucksForFeet` (the truck decomposer of the final server-action
  variant): maps total linear footage to a truck-class / count
  recommendation.  JavaScript numbers are modelled as rationals (`ℚ`);
  `Math.floor(x / 48)` is `⌊x / 48⌋` and, for positive `x`, `x % 48`
  is `x - 48 * ⌊x / 48⌋`.
* the recommendation parser of `truck-calculator.tsx`
  (`getMixedSummary`, `parseCombinedRecommendation`, `getMixedTypes`),
  with the JavaScript regular expressions transcribed as explicit
  matchers over `List Char`;
* the occupancy allocator (`allocation` in `truck-calculator.tsx`).
-/

namespace TruckCalc

/-- Result record of `getTrucksForFeet`:
`{ truckType, trucksNeeded, summary }`.  `truckType` is one of the
string literals `'LTL' | 'Half Truck' | 'Full Truck' | 'Mixed'` used by
the source, kept as a `String`. -/
structure TrucksResult where
  truckType : String
  trucksNeeded : ℤ
  summary : String
deriving DecidableEq, Repr

/-- `getTrucksForFeet(totalLinearFeet)` from the final server action
(the truck decomposer).  Faithful transcription: the `<= 0` early
return, `fullTrucks = Math.floor(totalLinearFeet / 48)`,
`remainingFeet = totalLinearFeet % 48` (for positive input this is
`totalLinearFeet - 48 * fullTrucks`), the overflow classification
(`< 14` → LTL, `<= 24` → Half Truck, else Full Truck), and the four
result branches in source order. -/
def getTrucksForFeet (totalLinearFeet : ℚ) : TrucksResult :=
  if totalLinearFeet ≤ 0 then
    { truckType := "LTL", trucksNeeded := 0, summary := "No shipment items." }
  else
    let fullTrucks : ℤ := ⌊totalLinearFeet / 48⌋
    let remainingFeet : ℚ := totalLinearFeet - 48 * fullTrucks
    let overflowTruckType : Option String :=
      if 0 < remainingFeet then
        if remainingFeet < 14 then some "LTL"
        else if remainingFeet ≤ 24 then some "Half Truck"
        else some "Full Truck"
      else none
    let trucksNeeded : ℤ := fullTrucks + (if overflowTruckType.isSome then 1 else 0)
    match overflowTruckType with
    | some ot =>
      if 0 < fullTrucks then
        { truckType := "Mixed", trucksNeeded := trucksNeeded,
          summary := toString fullTrucks ++ " Full Truck(s) and 1 " ++ ot }
      else
        { truckType := ot, trucksNeeded := 1, summary := "1 " ++ ot }
    | none =>
      if 0 < fullTrucks then
        { truckType := "Full Truck", trucksNeeded := fullTrucks,
          summary := toString fullTrucks ++ " Full Truck(s)" }
      else
        { truckType := "LTL", trucksNeeded := 0, summary := "Calculation error." }

/-! ## Recommendation parser (`truck-calculator.tsx`)

The parser works on JavaScript strings; we transcribe it over
`List Char` with `String` wrappers.  Each JavaScript regular expression
is modelled by an explicit matcher; backtracking choice points of the
regex engine are enumerated where they can change the result.
-/

/-- JavaScript `\s` (ASCII part; the inputs of this program are ASCII). -/
def isSpaceJS (c : Char) : Bool :=
  c == ' ' || c == '\t' || c == '\n' || c == '\r' || c == '\x0b' || c == '\x0c'

/-- `\d` — an ASCII decimal digit. -/
def isDigitChar (c : Char) : Bool :=
  '0' ≤ c && c ≤ '9'

/-- JavaScript `\w` — `[A-Za-z0-9_]`. -/
def isWordChar (c : Char) : Bool :=
  ('a' ≤ c && c ≤ 'z') || ('A' ≤ c && c ≤ 'Z') || isDigitChar c || c == '_'

/-- The character class `[A-Za-z ]` of the clause regex. -/
def isClassChar (c : Char) : Bool :=
  ('a' ≤ c && c ≤ 'z') || ('A' ≤ c && c ≤ 'Z') || c == ' '

/-- Characters excluded by `.` in a JavaScript regex without the `s`
flag (line terminators; the Unicode separators do not occur here). -/
def isNewlineJS (c : Char) : Bool :=
  c == '\n' || c == '\r'

/-- Case-insensitive prefix test (the `i` flag). -/
def isPrefixCI : List Char → List Char → Bool
  | [], _ => true
  | _ :: _, [] => false
  | p :: ps, c :: cs => (c.toLower == p.toLower) && isPrefixCI ps cs

/-- Case-insensitive substring test: `/pat/i.test(s)` for a literal
pattern. -/
def containsCI (pat : List Char) : List Char → Bool
  | [] => isPrefixCI pat []
  | c :: cs => isPrefixCI pat (c :: cs) || containsCI pat cs

/-- `/less[- ]than[- ]truck/i.test(s)`: the two character-class
alternatives expanded into the four literal patterns. -/
def containsLessThanTruck (s : List Char) : Bool :=
  containsCI "less-than-truck".data s || containsCI "less-than truck".data s ||
    containsCI "less than-truck".data s || containsCI "less than truck".data s

/-- Word-boundary test helper: a `\b` before the match position holds
when the previous character (none at the start) is not a word
character. -/
def nonWordHead : List Char → Bool
  | [] => true
  | c :: _ => !isWordChar c

/-- `/\bltl\b/i.test(s)`: scan for `ltl` with word boundaries on both
sides; `prevWord` says whether the previous character was a word
character. -/
def containsWordLtlAux (prevWord : Bool) : List Char → Bool
  | [] => false
  | c :: cs =>
    (!prevWord && isPrefixCI "ltl".data (c :: cs) && nonWordHead ((c :: cs).drop 3))
      || containsWordLtlAux (isWordChar c) cs

def containsWordLtl (s : List Char) : Bool :=
  containsWordLtlAux false s

/-- `split(/\band\b/i)`: left-to-right scan; at each position where a
word-bounded `and` starts, cut.  After consuming the separator the
previous character is its final `d`, a word character. -/
def splitAndAux (prevWord : Bool) (acc : List Char) : List Char → List (List Char)
  | [] => [acc.reverse]
  | c :: cs =>
    if !prevWord && isPrefixCI "and".data (c :: cs) && nonWordHead (cs.drop 2) then
      match cs with
      | _ :: _ :: rest => acc.reverse :: splitAndAux true [] rest
      | _ => [acc.reverse]
    else
      splitAndAux (isWordChar c) (c :: acc) cs

def splitOnWordAnd (s : List Char) : List (List Char) :=
  splitAndAux false [] s

/-- JavaScript `trim()` (ASCII whitespace). -/
def trimJS (l : List Char) : List Char :=
  ((l.dropWhile isSpaceJS).reverse.dropWhile isSpaceJS).reverse

/-- `replace(/\.$/, '')` — drop one trailing period. -/
def stripTrailingDot (l : List Char) : List Char :=
  match l.reverse with
  | '.' :: rest => rest.reverse
  | _ => l

/-! ### `/recommendation is:?\s*(.+)/i` (in `getMixedSummary`) -/

/-- Greedy `\s*(.+)` on the text after `recommendation is:?`.
The engine first lets `\s*` eat all whitespace; `(.+)` then matches
greedily from the first non-whitespace character up to the next line
terminator.  When the rest is all whitespace, `\s*` backtracks and the
first success captures the last non-line-terminator character, if
any. -/
def recSpTail (r : List Char) : Option (List Char) :=
  match r.dropWhile isSpaceJS with
  | c :: cs => some ((c :: cs).takeWhile (fun d => !isNewlineJS d))
  | [] =>
    match r.reverse.find? (fun c => !isNewlineJS c) with
    | some c => some [c]
    | none => none

/-- `:?\s*(.+)`: the optional colon is consumed greedily; if the rest
then fails, the engine backtracks and retries with the colon left as
text for `(.+)`. -/
def recIsTail (r : List Char) : Option (List Char) :=
  match r with
  | ':' :: r' =>
    match recSpTail r' with
    | some cap => some cap
    | none => recSpTail r
  | _ => recSpTail r

/-- Leftmost match of `/recommendation is:?\s*(.+)/i`: try every
occurrence of the literal left to right and return the first capture. -/
def matchRecIs : List Char → Option (List Char)
  | [] => none
  | c :: cs =>
    if isPrefixCI "recommendation is".data (c :: cs) then
      match recIsTail ((c :: cs).drop 17) with
      | some cap => some cap
      | none => matchRecIs cs
    else matchRecIs cs

/-! ### `/(\d+)\s*(?:x|×)?\s*([A-Za-z ]+?)(?:\(|\.|,|$)/i` -/

/-- Backtracking choices for a greedy `\s*`: consume the maximal run of
whitespace first, then give characters back one at a time. -/
def wsChoices (r : List Char) : List (List Char) :=
  (List.range ((r.takeWhile isSpaceJS).length + 1)).reverse.map (fun i => r.drop i)

/-- Choices for `(?:x|×)?` (with the `i` flag): consume the multiplier
token if present, preferring to consume. -/
def xChoices (r : List Char) : List (List Char) :=
  match r with
  | c :: cs => if c == 'x' || c == 'X' || c == '×' then [cs, c :: cs] else [c :: cs]
  | [] => [[]]

/-- `([A-Za-z ]+?)(?:\(|\.|,|$)`: the capture's class and the
terminators are disjoint character sets, so the lazy capture is forced:
it is the maximal run of `[A-Za-z ]` characters, which must be
non-empty and be followed by `(`, `.`, `,` or the end of the string. -/
def capTail (r : List Char) : Option (List Char) :=
  let cap := r.takeWhile isClassChar
  if cap.isEmpty then none
  else
    match r.drop cap.length with
    | [] => some cap
    | c :: _ => if c == '(' || c == '.' || c == ',' then some cap else none

/-- The part of the clause regex after the digits. -/
def clauseTail (r : List Char) : Option (List Char) :=
  (wsChoices r).findSome? fun r1 =>
    (xChoices r1).findSome? fun r2 =>
      (wsChoices r2).findSome? fun r3 => capTail r3

/-- Leftmost match of the clause regex: the match must start at a
digit; `(\d+)` takes the maximal digit run (giving digits back cannot
help, since a digit can satisfy neither `(?:x|×)?` nor `[A-Za-z ]`).
On failure the engine advances one position. -/
def matchClause : List Char → Option (List Char × List Char)
  | [] => none
  | c :: cs =>
    if isDigitChar c then
      let digits := (c :: cs).takeWhile isDigitChar
      match clauseTail ((c :: cs).drop digits.length) with
      | some cap => some (digits, cap)
      | none => matchClause cs
    else matchClause cs

/-- `match(/(\d+)/)` — the first run of digits, if any. -/
def firstDigits : List Char → Option (List Char)
  | [] => none
  | c :: cs =>
    if isDigitChar c then some ((c :: cs).takeWhile isDigitChar)
    else firstDigits cs

/-- `parseInt` on a run of ASCII digits. -/
def natOfDigits (l : List Char) : ℕ :=
  l.foldl (fun n c => 10 * n + (c.toNat - '0'.toNat)) 0

/-! ### The parser functions -/

/-- `getMixedSummary(packingNotes)`: extract the text after
`recommendation is`, trimmed, with one trailing period removed;
`'Mixed Fleet Required'` when the notes are absent or the regex does
not match. -/
def getMixedSummary (packingNotes : String) : String :=
  if packingNotes = "" then "Mixed Fleet Required"
  else
    match matchRecIs packingNotes.data with
    | some cap => String.mk (stripTrailingDot (trimJS cap))
    | none => "Mixed Fleet Required"

/-- One iteration of the `for (const part of parts)` loop of
`parseCombinedRecommendation`: match the clause regex (else fall back
to the first number anywhere, else count 0), classify the phrase by
keyword, `count || 1`.  Unrecognised phrases produce no entry. -/
def clauseEntry (part : List Char) : Option (String × ℕ) :=
  let m := matchClause part
  let count : ℕ :=
    match m with
    | some (digits, _) => natOfDigits digits
    | none =>
      match firstDigits part with
      | some d => natOfDigits d
      | none => 0
  let raw : List Char :=
    match m with
    | some (_, cap) => trimJS cap
    | none => part
  if containsCI "full".data raw then some ("Full Truck", if count = 0 then 1 else count)
  else if containsCI "half".data raw then some ("Half Truck", if count = 0 then 1 else count)
  else if containsCI "ltl".data raw || containsLessThanTruck raw then
    some ("LTL", if count = 0 then 1 else count)
  else none

/-- First-seen-order list of the types of `results` (the `ordered`
array). -/
def orderedTypes (results : List (String × ℕ)) : List String :=
  results.foldl (fun acc r => if acc.contains r.1 then acc else acc ++ [r.1]) []

/-- `aggregated[t]`: the sum of `r.count || 1` over the entries of
`results` with type `t`. -/
def aggCount (results : List (String × ℕ)) (t : String) : ℕ :=
  ((results.filter (fun r => r.1 == t)).map (fun r => if r.2 = 0 then 1 else r.2)).sum

/-- The final `ordered.map(t => ({type: t, count: aggregated[t]}))`. -/
def aggregate (results : List (String × ℕ)) : List (String × ℕ) :=
  (orderedTypes results).map (fun t => (t, aggCount results t))

/-- `parseCombinedRecommendation(packingNotes)`: split the extracted
summary on word-bounded `and`, parse each clause, and aggregate counts
per class preserving first-seen order. -/
def parseCombinedRecommendation (packingNotes : String) : List (String × ℕ) :=
  if packingNotes = "" then []
  else
    let summary := getMixedSummary packingNotes
    if summary = "" then []
    else
      let parts := (splitOnWordAnd summary.data).map trimJS
      let results := parts.filterMap clauseEntry
      aggregate results

/-- The whole-text keyword scan of `getMixedTypes` (the three `if
(...test(packingNotes)) types.push(...)` statements): at most one entry
per class, pushed in Full/Half/LTL order. -/
def keywordScanTypes (packingNotes : String) : List String :=
  (if containsCI "full truck".data packingNotes.data then ["Full Truck"] else []) ++
    (if containsCI "half truck".data packingNotes.data then ["Half Truck"] else []) ++
    (if containsWordLtl packingNotes.data || containsLessThanTruck packingNotes.data then
      ["LTL"] else [])

/-- `getMixedTypes(packingNotes)`: the parsed types when structured
parsing succeeds, otherwise the whole-text keyword scan, defaulting to
`['Full Truck', 'LTL']`. -/
def getMixedTypes (packingNotes : String) : List String :=
  let parsed := parseCombinedRecommendation packingNotes
  if parsed.length > 0 then parsed.map (·.1)
  else if packingNotes = "" then ["Full Truck", "LTL"]
  else
    let types := keywordScanTypes packingNotes
    if types.length = 0 then ["Full Truck", "LTL"] else types

/-! ## Occupancy allocator (`truck-calculator.tsx`) -/

/-- The `TRUCK_CAPACITY` record (linear feet per truck class);
`none` models a key absent from the record. -/
def TRUCK_CAPACITY (t : String) : Option ℚ :=
  if t = "Full Truck" then some 48
  else if t = "Half Truck" then some 24
  else if t = "LTL" then some 14
  else none

/-- `entries.reduce((s, e) => s + (e.count * (TRUCK_CAPACITY[e.type] || 0)), 0)`. -/
def totalCapacityOf (entries : List (String × ℕ)) : ℚ :=
  entries.foldl (fun s e => s + (e.2 : ℚ) * ((TRUCK_CAPACITY e.1).getD 0)) 0

/-- The Mixed branch of the `allocation` computation: one output per
parsed entry, in entry order (the source stores them in a record keyed
by type; parsed entries have pairwise distinct types, so the
association list is equivalent).  Guards transcribed from the source:
`totalCapacity > 0 ?`, `e.count > 0 ?`, `cap > 0 ?`. -/
def allocationMixed (entries : List (String × ℕ)) (totalFeet : ℚ) :
    List (String × ℚ × ℚ) :=
  let totalCapacity := totalCapacityOf entries
  entries.map (fun e =>
    let cap := (TRUCK_CAPACITY e.1).getD 48
    let shareTotal := if 0 < totalCapacity then ((e.2 : ℚ) * cap) / totalCapacity else 0
    let assignedTotalFeet := totalFeet * shareTotal
    let perTruckFeet := if 0 < e.2 then assignedTotalFeet / (e.2 : ℚ) else 0
    let occupancy := if 0 < cap then min 1 (perTruckFeet / cap) else 0
    (e.1, perTruckFeet, occupancy))

/-- The single-type branch of the `allocation` computation:
`(perTruckFeet, occupancy)` for the one suggested truck type. -/
def allocationSingle (truckType : String) (trucksNeeded : ℤ) (totalFeet : ℚ) :
    ℚ × ℚ :=
  let cap := (TRUCK_CAPACITY truckType).getD 48
  let perTruckFeet := if 0 < trucksNeeded then totalFeet / (trucksNeeded : ℚ) else 0
  let occupancy := if 0 < cap then min 1 (perTruckFeet / cap) else 0
  (perTruckFeet, occupancy)

/-- The `TruckSuggestion` value rendered by the component (final
variant of `lib/types`): `truckType`, `trucksNeeded`, `packingNotes`,
`linearFeet`. -/
structure TruckSuggestion where
  truckType : String
  trucksNeeded : ℤ
  packingNotes : String
  linearFeet : ℚ

/-- The full `allocation` computation: Mixed suggestions allocate over
the entries parsed from the packing notes (`mixedParsed`), single-type
suggestions distribute `linearFeet` evenly over `trucksNeeded`.
(`suggestion.linearFeet || 0` is the identity on rationals since only
the number `0` is falsy.) -/
def allocation (s : TruckSuggestion) : List (String × ℚ × ℚ) :=
  if s.truckType = "Mixed" then
    allocationMixed (parseCombinedRecommendation s.packingNotes) s.linearFeet
  else
    [(s.truckType, allocationSingle s.truckType s.trucksNeeded s.linearFeet)]

/-! ## Pipeline (`getTruckSuggestion`, final server-action variant)

The two AI flows are external collaborators; their (optional) results
are inputs to the deterministic core.  A flow whose input list is
empty is not invoked and contributes nothing.
-/

/-- JavaScript truthiness of an optional number: `undefined` and `0`
are falsy. -/
def truthyN (o : Option ℚ) : Bool :=
  match o with
  | some q => q ≠ 0
  | none => false

/-- JavaScript truthiness of an optional string: `undefined` and the
empty string are falsy. -/
def truthyS (o : Option String) : Bool :=
  match o with
  | some s => s ≠ ""
  | none => false

/-- An item merged with its catalog data (`ItemWithData`); only the
fields the deterministic pipeline inspects are modelled, the rest are
merely forwarded to the external flows. -/
structure ItemWithData where
  sku : String
  quantity : ℕ
  category : Option String
  weightLbs : Option ℚ
  rollsPerPallet : Option ℚ
  qtyPerPallet : Option ℚ
  palletLength : Option ℚ
deriving DecidableEq

/-- The packable subset: `item.category && (item.rollsPerPallet ||
item.qtyPerPallet) && item.palletLength && item.weightLbs`. -/
def itemsForPacking (itemsWithData : List ItemWithData) : List ItemWithData :=
  itemsWithData.filter (fun item =>
    truthyS item.category &&
      (truthyN item.rollsPerPallet || truthyN item.qtyPerPallet) &&
      truthyN item.palletLength &&
      truthyN item.weightLbs)

/-- The complement sent to the general estimation flow. -/
def itemsForEstimation (itemsWithData : List ItemWithData) : List ItemWithData :=
  itemsWithData.filter (fun item =>
    !((itemsForPacking itemsWithData).any (fun p => p.sku == item.sku)))

/-- Output schema of the packing-suggestions flow. -/
structure PackingSuggestionsOutput where
  truckType : String
  trucksNeeded : ℤ
  packingNotes : String
  linearFeet : ℚ

/-- `truckRecommendation` of the estimation flow. -/
structure TruckRecommendation where
  truckType : String
  numberOfTrucks : ℤ
  reasoning : String
  linearFeet : ℚ

/-- Output schema of the estimation flow. -/
structure EstimateTruckRequirementsOutput where
  truckRecommendation : TruckRecommendation

/-- `Number.prototype.toFixed(2)` for the non-negative totals occurring
here, with exact half-up rounding over ℚ in place of binary-float
rounding. -/
def toFixed2 (q : ℚ) : String :=
  let cents : ℤ := ⌊q * 100 + 1 / 2⌋
  let whole := cents / 100
  let frac := (cents % 100).toNat
  toString whole ++ "." ++ (if frac < 10 then "0" ++ toString frac else toString frac)

/-- The final `getTruckSuggestion` server action (deterministic part).
`packingFlow` / `estimationFlow` stand for the external AI results; a
flow is consulted only when its input list is non-empty, its missing
`linearFeet` defaults to 0 (`?? 0`), and the two contributions are
summed and decomposed by `getTrucksForFeet`. -/
def getTruckSuggestion (itemsWithData : List ItemWithData)
    (packingFlow : Option PackingSuggestionsOutput)
    (estimationFlow : Option EstimateTruckRequirementsOutput) : TruckSuggestion :=
  if itemsWithData = [] then
    { truckType := "LTL", trucksNeeded := 0,
      packingNotes := "No items to calculate.", linearFeet := 0 }
  else
    let packingResult :=
      if itemsForPacking itemsWithData ≠ [] then packingFlow else none
    let estimationResult :=
      if itemsForEstimation itemsWithData ≠ [] then estimationFlow else none
    let packingFeet := (packingResult.map (fun r => r.linearFeet)).getD 0
    let estimationFeet :=
      (estimationResult.map (fun r => r.truckRecommendation.linearFeet)).getD 0
    let totalLinearFeet := packingFeet + estimationFeet
    let r := getTrucksForFeet totalLinearFeet
    let combinedNotes :=
      "--- Combined Recommendation ---" ++ "\n" ++
        "Based on a total of " ++ toFixed2 totalLinearFeet ++
        " linear feet, the recommendation is: " ++ r.summary ++ "." ++ "\n\n" ++
        (match packingResult with
          | some p => "--- Detailed Packing Plan (" ++ toFixed2 packingFeet ++
              " ft) ---" ++ "\n" ++ p.packingNotes ++ "\n\n"
          | none => "") ++
        (match estimationResult with
          | some e => "--- Additional Items Estimation (" ++ toFixed2 estimationFeet ++
              " ft) ---" ++ "\n" ++ e.truckRecommendation.reasoning
          | none => "")
    { truckType := r.truckType, trucksNeeded := r.trucksNeeded,
      packingNotes := combinedNotes, linearFeet := totalLinearFeet }



/-! # Theorems -/

/-! ## Branch lemmas for the decomposer -/

lemma getTrucksForFeet_nonpos {x : ℚ} (h : x ≤ 0) :
    getTrucksForFeet x =
      { truckType := "LTL", trucksNeeded := 0, summary := "No shipment items." } := by
  simp [getTrucksForFeet, h]

lemma floor_div48_eq_zero {x : ℚ} (h0 : 0 ≤ x) (h48 : x < 48) : ⌊x / 48⌋ = 0 := by
  refine Int.floor_eq_zero_iff.mpr ⟨div_nonneg h0 (by norm_num), ?_⟩
  rw [div_lt_one (by norm_num : (0:ℚ) < 48)]
  exact h48

lemma getTrucksForFeet_LTL_range {x : ℚ} (h0 : 0 < x) (h14 : x < 14) :
    getTrucksForFeet x = { truckType := "LTL", trucksNeeded := 1, summary := "1 LTL" } := by
  have hk : ⌊x / 48⌋ = 0 := floor_div48_eq_zero h0.le (by linarith)
  simp only [getTrucksForFeet, hk]
  rw [if_neg (not_le.mpr h0)]
  norm_num
  rw [if_pos h0, if_pos h14]
  rfl

lemma getTrucksForFeet_Half_range {x : ℚ} (h14 : 14 ≤ x) (h24 : x ≤ 24) :
    getTrucksForFeet x =
      { truckType := "Half Truck", trucksNeeded := 1, summary := "1 Half Truck" } := by
  have h0 : 0 < x := by linarith
  have hk : ⌊x / 48⌋ = 0 := floor_div48_eq_zero h0.le (by linarith)
  simp only [getTrucksForFeet, hk]
  rw [if_neg (not_le.mpr h0)]
  norm_num
  rw [if_pos h0, if_neg (not_lt.mpr h14), if_pos h24]
  rfl

lemma getTrucksForFeet_Full_range {x : ℚ} (h24 : 24 < x) (h48 : x < 48) :
    getTrucksForFeet x =
      { truckType := "Full Truck", trucksNeeded := 1, summary := "1 Full Truck" } := by
  have h0 : 0 < x := by linarith
  have hk : ⌊x / 48⌋ = 0 := floor_div48_eq_zero h0.le h48
  simp only [getTrucksForFeet, hk]
  rw [if_neg (not_le.mpr h0)]
  norm_num
  rw [if_pos h0, if_neg (not_lt.mpr (by linarith : (14:ℚ) ≤ x)),
    if_neg (not_le.mpr h24)]
  rfl

/-! ## C1 — overflow `remainder > 24` with at least one full truck -/

/-- C1 counterexample.  The claim asserts that for `totalLinearFeet = 90`
(`floor(90/48) = 1`, `90 mod 48 = 42 > 24`) the decomposer merges the
overflow into the Full count, yielding the single-class result
`{Full Truck, 2}`.  In fact `getTrucksForFeet 90` has
`truckType = "Mixed"`, not `"Full Truck"`. -/
theorem decompose_90_is_mixed_not_full :
    (getTrucksForFeet 90).truckType = "Mixed" ∧
      (getTrucksForFeet 90).truckType ≠ "Full Truck" ∧
      getTrucksForFeet 90 =
        { truckType := "Mixed", trucksNeeded := 2,
          summary := "1 Full Truck(s) and 1 Full Truck" } := by
  have hk : ⌊(90:ℚ) / 48⌋ = 1 := by norm_num
  have h90 : getTrucksForFeet 90 =
      { truckType := "Mixed", trucksNeeded := 2,
        summary := "1 Full Truck(s) and 1 Full Truck" } := by
    simp only [getTrucksForFeet, hk]
    norm_num
    rfl
  exact ⟨by rw [h90], by rw [h90]; decide, h90⟩

/-- C1 amended.  Whenever `floor(totalLinearFeet/48) ≥ 1` and the
remainder exceeds 24, `getTrucksForFeet` emits a **Mixed** result whose
summary lists the overflow as a second `Full Truck` entry
(`"k Full Truck(s) and 1 Full Truck"`), with
`trucksNeeded = floor(totalLinearFeet/48) + 1`; it does not merge the
overflow into a single-class Full count. -/
theorem decompose_overflow_gt24_mixed (x : ℚ)
    (hfull : 0 < ⌊x / 48⌋) (hrem : 24 < x - 48 * ⌊x / 48⌋) :
    getTrucksForFeet x =
      { truckType := "Mixed", trucksNeeded := ⌊x / 48⌋ + 1,
        summary := toString ⌊x / 48⌋ ++ " Full Truck(s) and 1 Full Truck" } := by
  have h1 : ((1:ℤ):ℚ) ≤ x / 48 := Int.le_floor.mp hfull
  have hx : 0 < x := by
    have h48 : (48:ℚ) ≤ x := by
      rw [le_div_iff₀ (by norm_num : (0:ℚ) < 48)] at h1
      push_cast at h1
      linarith
    linarith
  have hrem0 : 0 < x - 48 * ⌊x / 48⌋ := by linarith
  simp only [getTrucksForFeet]
  rw [if_neg (not_le.mpr hx)]
  simp only [if_pos hrem0, if_neg (not_lt.mpr (by linarith : (14:ℚ) ≤ x - 48 * ⌊x / 48⌋)),
    if_neg (not_le.mpr hrem), Option.isSome_some, if_pos hfull, if_true]
  rw [String.append_assoc]
  rfl

/-- C1 witness: the amended statement applied at `totalLinearFeet = 90`. -/
theorem decompose_overflow_gt24_mixed_witness :
    getTrucksForFeet 90 =
      { truckType := "Mixed", trucksNeeded := ⌊(90:ℚ) / 48⌋ + 1,
        summary := toString ⌊(90:ℚ) / 48⌋ ++ " Full Truck(s) and 1 Full Truck" } :=
  decompose_overflow_gt24_mixed 90 (by norm_num) (by norm_num)

/-! ## C2 — boundary classification -/

/-- C2.  Exact boundary behaviour of the decomposer:
`13.99 → LTL`, `14 → Half Truck`, `24 → Half Truck`,
`24.01 → Full Truck`, `48 → Full Truck` with zero remainder (pure Full,
not Mixed), `50 → Mixed` made of one Full Truck and one LTL
(summary `"1 Full Truck(s) and 1 LTL"`, 2 trucks). -/
theorem decompose_boundaries :
    getTrucksForFeet (1399/100) =
        { truckType := "LTL", trucksNeeded := 1, summary := "1 LTL" } ∧
      getTrucksForFeet 14 =
        { truckType := "Half Truck", trucksNeeded := 1, summary := "1 Half Truck" } ∧
      getTrucksForFeet 24 =
        { truckType := "Half Truck", trucksNeeded := 1, summary := "1 Half Truck" } ∧
      getTrucksForFeet (2401/100) =
        { truckType := "Full Truck", trucksNeeded := 1, summary := "1 Full Truck" } ∧
      getTrucksForFeet 48 =
        { truckType := "Full Truck", trucksNeeded := 1, summary := "1 Full Truck(s)" } ∧
      getTrucksForFeet 50 =
        { truckType := "Mixed", trucksNeeded := 2,
          summary := "1 Full Truck(s) and 1 LTL" } := by
  refine ⟨getTrucksForFeet_LTL_range (by norm_num) (by norm_num),
    getTrucksForFeet_Half_range (by norm_num) (by norm_num),
    getTrucksForFeet_Half_range (by norm_num) (by norm_num),
    getTrucksForFeet_Full_range (by norm_num) (by norm_num), ?_, ?_⟩
  · have hk : ⌊(48:ℚ) / 48⌋ = 1 := by norm_num
    simp only [getTrucksForFeet, hk]
    norm_num
    rfl
  · have hk : ⌊(50:ℚ) / 48⌋ = 1 := by norm_num
    simp only [getTrucksForFeet, hk]
    norm_num
    rfl

/-! ## C3 — totality and treatment of negative input -/

/-- C3 counterexample.  The claim asserts that negative input fails with
an `InvalidInput` error.  The source has no error path at all: at
`totalLinearFeet = -1` it returns the ordinary zero-truck record. -/
theorem decompose_neg_one_returns_zero_result :
    getTrucksForFeet (-1) =
      { truckType := "LTL", trucksNeeded := 0, summary := "No shipment items." } :=
  getTrucksForFeet_nonpos (by norm_num)

/-- C3 amended.  `getTrucksForFeet` is a total function: it never fails
for any rational input.  Negative (and zero) inputs are not rejected
with an `InvalidInput` error; they take the `totalLinearFeet <= 0`
early return and yield the zero-truck result. -/
theorem decompose_nonpos_returns_zero_result (x : ℚ) (h : x ≤ 0) :
    getTrucksForFeet x =
      { truckType := "LTL", trucksNeeded := 0, summary := "No shipment items." } :=
  getTrucksForFeet_nonpos h

/-- C3 witness: the amended statement applied at `totalLinearFeet = -2`. -/
theorem decompose_nonpos_returns_zero_result_witness :
    getTrucksForFeet (-2) =
      { truckType := "LTL", trucksNeeded := 0, summary := "No shipment items." } :=
  decompose_nonpos_returns_zero_result (-2) (by norm_num)

/-! ## C4 — round-tripping a formatted recommendation -/

/-- C4 counterexample.  `parseCombinedRecommendation` applied to the
bare summary text `"2 Full Truck(s) and 1 LTL"` returns `[]`, not
`[{Full, 2}, {LTL, 1}]`: the parser first looks for a
`recommendation is:` line and falls back to the unparseable
`'Mixed Fleet Required'` when the marker is absent.  Likewise for
`"1 Half Truck"`. -/
theorem parse_bare_summary_returns_empty :
    parseCombinedRecommendation "2 Full Truck(s) and 1 LTL" = [] ∧
      parseCombinedRecommendation "2 Full Truck(s) and 1 LTL" ≠
        [("Full Truck", 2), ("LTL", 1)] ∧
      parseCombinedRecommendation "1 Half Truck" = [] := by
  refine ⟨by decide, ?_, by decide⟩
  decide

/-- C4 amended.  The round trip holds for the formatted packing notes
the pipeline actually produces (which embed the decomposer's summary
after `the recommendation is:`): the summary of `decompose(100)` is
`"2 Full Truck(s) and 1 LTL"` and parsing notes containing that line
yields `[{Full Truck, 2}, {LTL, 1}]`, order preserved; similarly
`decompose(20)` gives `"1 Half Truck"` and parsing its notes yields
`[{Half Truck, 1}]`. -/
theorem parse_roundtrips_formatted_notes :
    (getTrucksForFeet 100).summary = "2 Full Truck(s) and 1 LTL" ∧
      parseCombinedRecommendation
          "--- Combined Recommendation ---\nBased on a total of 100.00 linear feet, the recommendation is: 2 Full Truck(s) and 1 LTL.\n\n" =
        [("Full Truck", 2), ("LTL", 1)] ∧
      (getTrucksForFeet 20).summary = "1 Half Truck" ∧
      parseCombinedRecommendation
          "--- Combined Recommendation ---\nBased on a total of 20.00 linear feet, the recommendation is: 1 Half Truck.\n\n" =
        [("Half Truck", 1)] := by
  have h100 : getTrucksForFeet 100 =
      { truckType := "Mixed", trucksNeeded := 3,
        summary := "2 Full Truck(s) and 1 LTL" } := by
    have hk : ⌊(100:ℚ) / 48⌋ = 2 := by norm_num
    simp only [getTrucksForFeet, hk]
    norm_num
    rfl
  have h20 : getTrucksForFeet 20 =
      { truckType := "Half Truck", trucksNeeded := 1, summary := "1 Half Truck" } :=
    getTrucksForFeet_Half_range (by norm_num) (by norm_num)
  exact ⟨by rw [h100], by decide, by rw [h20], by decide⟩

/-! ## C5 — keyword fallback of `getMixedTypes` -/

/-- C5.  `getMixedTypes` is a total function (it always returns a
list).  When structured parsing yields no entries, the whole-text
keyword scan produces a sublist of
`["Full Truck", "Half Truck", "LTL"]` — at most one entry per class,
in Full/Half/LTL priority order — containing each class whose keyword
occurs in the text, and returns the default `["Full Truck", "LTL"]`
when the text contains none of the class keywords. -/
theorem getMixedTypes_fallback (s : String)
    (h : parseCombinedRecommendation s = []) :
    (getMixedTypes s).Sublist ["Full Truck", "Half Truck", "LTL"] ∧
      (containsCI "full truck".data s.data = true → "Full Truck" ∈ getMixedTypes s) ∧
      (containsCI "half truck".data s.data = true → "Half Truck" ∈ getMixedTypes s) ∧
      ((containsWordLtl s.data || containsLessThanTruck s.data) = true →
        "LTL" ∈ getMixedTypes s) ∧
      ((containsCI "full truck".data s.data = false ∧
          containsCI "half truck".data s.data = false ∧
          containsWordLtl s.data = false ∧ containsLessThanTruck s.data = false) →
        getMixedTypes s = ["Full Truck", "LTL"]) := by
  by_cases hs : s = ""
  · have hg : getMixedTypes s = ["Full Truck", "LTL"] := by
      unfold getMixedTypes
      rw [h, hs]
      simp
    subst hs
    rw [hg]
    refine ⟨by decide, ?_, ?_, ?_, fun _ => rfl⟩ <;> intro hkw <;>
      exact absurd hkw (by decide)
  · have hg : getMixedTypes s =
        if (keywordScanTypes s).length = 0 then ["Full Truck", "LTL"]
        else keywordScanTypes s := by
      unfold getMixedTypes
      rw [h]
      simp [hs]
    rw [hg]
    unfold keywordScanTypes
    split_ifs <;>
      refine ⟨?_, ?_, ?_, ?_, ?_⟩ <;>
      simp_all <;>
      first
        | decide
        | (intro hfa; simp_all)

/-- C5 witness: `getMixedTypes_fallback` applied to a keyword-free
text (structured parsing yields no entries there). -/
theorem getMixedTypes_fallback_witness :
    (getMixedTypes "hello world").Sublist ["Full Truck", "Half Truck", "LTL"] ∧
      (containsCI "full truck".data "hello world".data = true →
        "Full Truck" ∈ getMixedTypes "hello world") ∧
      (containsCI "half truck".data "hello world".data = true →
        "Half Truck" ∈ getMixedTypes "hello world") ∧
      ((containsWordLtl "hello world".data || containsLessThanTruck "hello world".data) = true →
        "LTL" ∈ getMixedTypes "hello world") ∧
      ((containsCI "full truck".data "hello world".data = false ∧
          containsCI "half truck".data "hello world".data = false ∧
          containsWordLtl "hello world".data = false ∧
          containsLessThanTruck "hello world".data = false) →
        getMixedTypes "hello world" = ["Full Truck", "LTL"]) :=
  getMixedTypes_fallback "hello world" (by decide)

/-! ## C10 — every parsed entry has a positive count -/

lemma mem_orderedTypes_exists {results : List (String × ℕ)} {t : String}
    (h : t ∈ orderedTypes results) : ∃ r ∈ results, r.1 = t := by
  unfold orderedTypes at h
  suffices H : ∀ (acc : List String),
      t ∈ results.foldl
        (fun acc r => if acc.contains r.1 then acc else acc ++ [r.1]) acc →
      t ∈ acc ∨ ∃ r ∈ results, r.1 = t by
    rcases H [] h with h' | h'
    · simp at h'
    · exact h'
  clear h
  induction results with
  | nil => intro acc h; exact Or.inl h
  | cons r rs ih =>
    intro acc h
    rcases ih _ h with h' | ⟨r', hr', ht'⟩
    · dsimp only at h'
      by_cases hc : acc.contains r.1
      · rw [if_pos hc] at h'
        exact Or.inl h'
      · rw [if_neg hc, List.mem_append] at h'
        rcases h' with h' | h'
        · exact Or.inl h'
        · simp at h'
          exact Or.inr ⟨r, by simp, h'.symm⟩
    · exact Or.inr ⟨r', List.mem_cons_of_mem _ hr', ht'⟩

lemma aggCount_pos {results : List (String × ℕ)} {t : String}
    (h : ∃ r ∈ results, r.1 = t) : 1 ≤ aggCount results t := by
  obtain ⟨r, hr, ht⟩ := h
  have hrf : r ∈ results.filter (fun r => r.1 == t) :=
    List.mem_filter.mpr ⟨hr, by simp [ht]⟩
  have hv : (if r.2 = 0 then 1 else r.2) ∈
      (results.filter (fun r => r.1 == t)).map (fun r => if r.2 = 0 then 1 else r.2) :=
    List.mem_map.mpr ⟨r, hrf, rfl⟩
  have h1 : 1 ≤ (if r.2 = 0 then 1 else r.2) := by
    split
    · exact le_refl 1
    · omega
  calc 1 ≤ (if r.2 = 0 then 1 else r.2) := h1
    _ ≤ _ := List.single_le_sum (fun x _ => Nat.zero_le x) _ hv

/-- C10.  Every entry of `parseCombinedRecommendation` has a count of
at least 1: clause counts go through `count || 1` before being pushed
and aggregation sums those positive counts. -/
theorem parse_counts_ge_one (s : String) (e : String × ℕ)
    (he : e ∈ parseCombinedRecommendation s) : 1 ≤ e.2 := by
  unfold parseCombinedRecommendation at he
  split at he
  · simp at he
  · dsimp only at he
    split at he
    · simp at he
    · unfold aggregate at he
      rw [List.mem_map] at he
      obtain ⟨t, ht, rfl⟩ := he
      exact aggCount_pos (mem_orderedTypes_exists ht)

/-- C10 witness: a clause with an explicit count of `0`
(`"0 Full Truck"`) produces the entry `{Full Truck, 1}`, whose count
the theorem bounds. -/
theorem parse_counts_ge_one_witness :
    parseCombinedRecommendation "recommendation is: 0 Full Truck" =
        [("Full Truck", 1)] ∧
      1 ≤ (("Full Truck", 1) : String × ℕ).2 :=
  ⟨by decide,
    parse_counts_ge_one "recommendation is: 0 Full Truck" ("Full Truck", 1) (by decide)⟩


lemma foldl_add_map {α : Type} (g : α → ℚ) (l : List α) (init : ℚ) :
    l.foldl (fun s e => s + g e) init = init + (l.map g).sum := by
  induction l generalizing init with
  | nil => simp
  | cons a t ih => simp [ih, add_assoc]

lemma totalCapacityOf_pos {entries : List (String × ℕ)} (hne : entries ≠ [])
    (hvalid : ∀ e ∈ entries, 1 ≤ e.2 ∧
      (e.1 = "LTL" ∨ e.1 = "Half Truck" ∨ e.1 = "Full Truck")) :
    0 < totalCapacityOf entries := by
  unfold totalCapacityOf
  rw [foldl_add_map, zero_add]
  apply List.sum_pos
  · intro x hx
    rw [List.mem_map] at hx
    obtain ⟨e, he, rfl⟩ := hx
    obtain ⟨hcnt, htype⟩ := hvalid e he
    have hnq : (1:ℚ) ≤ (e.2 : ℚ) := by exact_mod_cast hcnt
    rcases htype with h | h | h <;> rw [h] <;>
      simp [TRUCK_CAPACITY] <;> linarith
  · simpa using hne

/-! ## C7 — the Mixed apportioning formula -/

/-- C7.  For a Mixed decomposition (non-empty entries, counts ≥ 1,
types among the three truck classes) and non-negative footage, each
class's allocation is exactly the proportional-capacity formula:
`classAssignedFeet = totalFeet * (count * cap) / Σ (count_j * cap_j)`,
`perTruckFeet = classAssignedFeet / count`,
`occupancy = min 1 (perTruckFeet / cap)`, with capacities
LTL = 14, Half Truck = 24, Full Truck = 48. -/
theorem allocationMixed_formula (entries : List (String × ℕ)) (totalFeet : ℚ)
    (hfeet : 0 ≤ totalFeet) (hne : entries ≠ [])
    (hvalid : ∀ e ∈ entries, 1 ≤ e.2 ∧
      (e.1 = "LTL" ∨ e.1 = "Half Truck" ∨ e.1 = "Full Truck")) :
    allocationMixed entries totalFeet =
      entries.map (fun e =>
        let cap := (TRUCK_CAPACITY e.1).getD 0
        let classAssignedFeet :=
          totalFeet * (((e.2 : ℚ) * cap) / totalCapacityOf entries)
        let perTruckFeet := classAssignedFeet / (e.2 : ℚ)
        (e.1, perTruckFeet, min 1 (perTruckFeet / cap))) := by
  have hpos : 0 < totalCapacityOf entries := totalCapacityOf_pos hne hvalid
  unfold allocationMixed
  refine List.map_congr_left (fun e he => ?_)
  obtain ⟨hcnt, htype⟩ := hvalid e he
  have hn : 0 < e.2 := hcnt
  rcases htype with h | h | h <;> rw [h] <;>
    simp [TRUCK_CAPACITY, hpos, hn]

/-- C7 witness: the formula instantiated at
`entries = [{Full Truck, 2}, {LTL, 1}]`, `totalFeet = 100`. -/
theorem allocationMixed_formula_witness :
    allocationMixed [("Full Truck", 2), ("LTL", 1)] 100 =
      [("Full Truck", 2), ("LTL", 1)].map (fun e =>
        let cap := (TRUCK_CAPACITY e.1).getD 0
        let classAssignedFeet :=
          (100 : ℚ) * (((e.2 : ℚ) * cap) / totalCapacityOf [("Full Truck", 2), ("LTL", 1)])
        let perTruckFeet := classAssignedFeet / (e.2 : ℚ)
        (e.1, perTruckFeet, min 1 (perTruckFeet / cap))) :=
  allocationMixed_formula [("Full Truck", 2), ("LTL", 1)] 100 (by norm_num)
    (by simp) (by decide)


/-! ## C8 — occupancy never exceeds 1 -/

lemma clamped_occ_le_one (cap p : ℚ) :
    (if 0 < cap then min 1 (p / cap) else 0) ≤ 1 := by
  split
  · exact min_le_left 1 _
  · norm_num

/-- C8.  Every occupancy fraction produced by the allocator — for the
Mixed branch and the single-type branch alike — is at most 1: the
source clamps with `Math.min(1, ...)` and returns 0 when the guard
fails. -/
theorem allocation_occupancy_le_one (s : TruckSuggestion)
    (x : String × ℚ × ℚ) (hx : x ∈ allocation s) : x.2.2 ≤ 1 := by
  unfold allocation at hx
  split at hx
  · unfold allocationMixed at hx
    rw [List.mem_map] at hx
    obtain ⟨e, _, rfl⟩ := hx
    exact clamped_occ_le_one _ _
  · rw [List.mem_singleton] at hx
    subst hx
    exact clamped_occ_le_one _ _

/-- C8 witness: a single-type suggestion filling 30 of 48 feet; its
occupancy `5/8` is at most 1. -/
theorem allocation_occupancy_le_one_witness :
    (("Full Truck", (30:ℚ), (5/8:ℚ)) ∈
        allocation ⟨"Full Truck", 1, "", 30⟩) ∧
      ((("Full Truck", (30:ℚ), (5/8:ℚ)) : String × ℚ × ℚ).2.2 ≤ 1) := by
  have hsingle : allocationSingle "Full Truck" 1 30 = (30, 5/8) := by
    simp [allocationSingle, TRUCK_CAPACITY, min_def]
    norm_num
  have hmem : (("Full Truck", (30:ℚ), (5/8:ℚ)) ∈
      allocation ⟨"Full Truck", 1, "", 30⟩) := by
    simp [allocation, hsingle]
  exact ⟨hmem, allocation_occupancy_le_one ⟨"Full Truck", 1, "", 30⟩ _ hmem⟩

/-! ## C9 — all divisions are guarded -/

/-- C9.  Each division of the allocator sits behind a guard, and every
guarded-out case yields exact zeroes (so no undefined value can reach
the output): a single-type suggestion with `trucksNeeded <= 0`
allocates `(0, 0)`; a Mixed entry with count 0 allocates `(0, 0)`; and
when the parsed entries have zero total capacity every Mixed
allocation is `(0, 0)`. -/
theorem allocation_division_guards :
    (∀ (t : String) (n : ℤ) (feet : ℚ), n ≤ 0 →
        allocationSingle t n feet = (0, 0)) ∧
      (∀ (entries : List (String × ℕ)) (feet : ℚ) (e : String × ℕ),
        e ∈ entries → e.2 = 0 →
        (e.1, (0:ℚ), (0:ℚ)) ∈ allocationMixed entries feet) ∧
      (∀ (entries : List (String × ℕ)) (feet : ℚ) (x : String × ℚ × ℚ),
        totalCapacityOf entries = 0 → x ∈ allocationMixed entries feet →
        x.2 = ((0:ℚ), (0:ℚ))) := by
  have hmin : min (1:ℚ) 0 = 0 := min_eq_right (by norm_num)
  have hz : ∀ cap : ℚ, (if 0 < cap then min 1 ((0:ℚ) / cap) else 0) = 0 := by
    intro cap
    split
    · rw [zero_div]
      exact hmin
    · rfl
  refine ⟨?_, ?_, ?_⟩
  · intro t n feet hn
    unfold allocationSingle
    dsimp only
    rw [if_neg (not_lt.mpr hn), hz]
  · intro entries feet e he hcnt
    unfold allocationMixed
    rw [List.mem_map]
    refine ⟨e, he, ?_⟩
    dsimp only
    rw [hcnt]
    simp [hz, hmin]
  · intro entries feet x htc hx
    unfold allocationMixed at hx
    rw [List.mem_map] at hx
    obtain ⟨e, _, rfl⟩ := hx
    dsimp only
    rw [htc]
    simp [hz, hmin]

/-- C9 witness: the three guards at concrete inputs — zero trucks
needed, a zero-count entry, and entries of zero total capacity (an
unrecognised type has capacity `|| 0`). -/
theorem allocation_division_guards_witness :
    allocationSingle "LTL" 0 5 = (0, 0) ∧
      (("Half Truck", (0:ℚ), (0:ℚ)) ∈ allocationMixed [("Half Truck", 0)] 7) ∧
      ((("Unknown", (0:ℚ), (0:ℚ)) : String × ℚ × ℚ).2 = ((0:ℚ), (0:ℚ))) := by
  have hmin : min (1:ℚ) 0 = 0 := min_eq_right (by norm_num)
  have htc : totalCapacityOf [("Unknown", 3)] = 0 := by
    simp [totalCapacityOf, TRUCK_CAPACITY]
  refine ⟨allocation_division_guards.1 "LTL" 0 5 le_rfl,
    allocation_division_guards.2.1 [("Half Truck", 0)] 7 ("Half Truck", 0)
      (by simp) rfl, ?_⟩
  refine allocation_division_guards.2.2 [("Unknown", 3)] 9 _ htc ?_
  unfold allocationMixed
  rw [htc]
  simp [TRUCK_CAPACITY, hmin]


/-! ## C6 — empty packable set yields the zero-truck terminal result -/

/-- C6.  The pipeline never errors on an empty packable set: with no
items at all it returns the zero-truck record outright, and whenever
the packable subset is empty and the estimation collaborator
contributes no footage (so `totalLinearFeet = 0`), the result is the
zero-truck terminal result (`trucksNeeded = 0`, type LTL, 0 feet). -/
theorem pipeline_empty_packable_zero_trucks (itemsWithData : List ItemWithData)
    (packingFlow : Option PackingSuggestionsOutput)
    (estimationFlow : Option EstimateTruckRequirementsOutput) :
    (itemsWithData = [] →
        getTruckSuggestion itemsWithData packingFlow estimationFlow =
          { truckType := "LTL", trucksNeeded := 0,
            packingNotes := "No items to calculate.", linearFeet := 0 }) ∧
      (itemsForPacking itemsWithData = [] →
        (estimationFlow.map (fun r => r.truckRecommendation.linearFeet)).getD 0 = 0 →
        (getTruckSuggestion itemsWithData packingFlow estimationFlow).trucksNeeded = 0 ∧
          (getTruckSuggestion itemsWithData packingFlow estimationFlow).truckType = "LTL" ∧
          (getTruckSuggestion itemsWithData packingFlow estimationFlow).linearFeet = 0) := by
  constructor
  · intro h
    unfold getTruckSuggestion
    rw [if_pos h]
  · intro hp hest
    by_cases hempty : itemsWithData = []
    · unfold getTruckSuggestion
      rw [if_pos hempty]
      exact ⟨rfl, rfl, rfl⟩
    · have hfeetE :
          ((if itemsForEstimation itemsWithData ≠ [] then estimationFlow
            else none).map (fun r => r.truckRecommendation.linearFeet)).getD 0 = 0 := by
        split
        · exact hest
        · rfl
      unfold getTruckSuggestion
      rw [if_neg hempty]
      dsimp only
      rw [if_neg (not_not_intro hp), hfeetE]
      simp only [Option.map_none', Option.getD_none, add_zero]
      rw [getTrucksForFeet_nonpos le_rfl]
      exact ⟨rfl, rfl, trivial⟩

/-- C6 witness: the empty shipment, and a one-item shipment whose item
lacks all packing attributes (empty packable subset) with no
estimation contribution. -/
theorem pipeline_empty_packable_zero_trucks_witness :
    getTruckSuggestion ([] : List ItemWithData) none none =
        { truckType := "LTL", trucksNeeded := 0,
          packingNotes := "No items to calculate.", linearFeet := 0 } ∧
      ((getTruckSuggestion [⟨"R5", 2, none, none, none, none, none⟩] none none).trucksNeeded = 0 ∧
        (getTruckSuggestion [⟨"R5", 2, none, none, none, none, none⟩] none none).truckType = "LTL" ∧
        (getTruckSuggestion [⟨"R5", 2, none, none, none, none, none⟩] none none).linearFeet = 0) :=
  ⟨(pipeline_empty_packable_zero_trucks [] none none).1 rfl,
    (pipeline_empty_packable_zero_trucks [⟨"R5", 2, none, none, none, none, none⟩]
        none none).2 rfl rfl⟩


end TruckCalc
